import Mathlib

/-!
# Verification of the bidding-realtime auction core

Shallow embedding of the bid-coordination logic in `src/app.ts` (the second,
cleaner draft, which the spec designates as the basis).  The mutable globals
`currentBid`, `history`, `currQuestion`, `roundDetails`, `questions`, `minBid`
become a `ServerState` record; the `socket.on('bid')` handler, `changeQuestion`
and `initiateRound` become state-transition functions.  Node's event loop runs
each `bid` handler to completion before the next (the handler body is
synchronous up to the un-awaited `changeQuestion`, whose own synchronous prefix
contains the whole local reset), so bid processing is modelled as a sequential
fold over arriving events.
-/

namespace Bidding

/-- `Question` from `./types`: `{ id: string, allocated: boolean }`. -/
structure Question where
  id : String
  allocated : Bool
deriving DecidableEq, Repr

/-- `History` entry from `./types`: `{ id: socket.id, bid: data.bid }`. -/
structure HistoryEntry where
  id : String
  bid : Int
deriving DecidableEq, Repr

/-- The payload of the round document fetched by `initiateRound`
(`roundDetails.body`): a question list, the floor bid `minBid`, and the
`service` enabled flag. -/
structure RoundBody where
  questions : List Question
  minBid : Int
  service : Bool
deriving DecidableEq, Repr

/-- The module-level mutable globals of `app.ts` (second draft, lines 170-175).
`roundDetails` is `none` until the first round fetch completes, mirroring the
`let roundDetails: any;` that stays `undefined` until `initiateRound` resolves. -/
structure ServerState where
  currentBid : Int
  history : List HistoryEntry
  currQuestion : String
  roundDetails : Option RoundBody
  questions : List Question
  minBid : Int
deriving DecidableEq, Repr

/-- Initial values of the globals at process start. -/
def initialState : ServerState :=
  { currentBid := 0, history := [], currQuestion := "", roundDetails := none,
    questions := [], minBid := 0 }

/-- Payload of an inbound `bid` event: `{ questionID, bid }`. -/
structure BidData where
  questionID : String
  bid : Int
deriving DecidableEq, Repr

/-- The `type` field of the `invalid` messages emitted on rejection. -/
inductive Reason where
  | down          -- 'Bidding has been disabled'
  | questionID    -- 'Invalid questionID supplied'
  | allocated     -- 'Question has already been allocated'
  | minimum       -- 'The bid you placed was too small'
  | denomination  -- 'Please bid in denominations of 5'
deriving DecidableEq, Repr

/-- Outcome of one run of the `bid` handler.  `exn` is the `TypeError` thrown
by `roundDetails.body` while `roundDetails` is still `undefined`; it escapes
the handler and reaches the process-level `uncaughtException` hook. -/
inductive Decision where
  | accept
  | reject (r : Reason)
  | exn
deriving DecidableEq, Repr

/-- `initiateRound` (lines 178-188): refetch the round document and reset the
globals from it, in the code's assignment order — `roundDetails`, `questions`,
`minBid`, `currQuestion = questions[0].id`, `currentBid = minBid`.  On an
empty question list, `questions[0].id` throws a TypeError AFTER `minBid` has
been updated but BEFORE `currentBid` is reset, so the partially updated state
persists (the escaped exception is only logged, see lines 136-138).  Note also
that `history` is NOT touched in either case, although the comment at the only
call site (line 228) reads "Upon changes made to the round, reset all
globals". -/
def initiateRound (st : ServerState) (body : RoundBody) : ServerState :=
  match body.questions with
  | [] =>
    { st with
      roundDetails := some body,
      questions := body.questions,
      minBid := body.minBid }
  | q :: _ =>
    { st with
      roundDetails := some body,
      questions := body.questions,
      minBid := body.minBid,
      currQuestion := q.id,
      currentBid := body.minBid }

/-- The local-state effect of `changeQuestion` (lines 191-200): if the supplied
id matches no known question, only an error is emitted and nothing changes;
otherwise `history`, `currentBid` and `currQuestion` are reset.  The remote
allocation `PUT` that follows is fire-and-forget and touches no local state. -/
def changeQuestion (st : ServerState) (id : String) : ServerState :=
  if (st.questions.filter (fun item => item.id = id)).length = 0 then
    st
  else
    { st with history := [], currentBid := st.minBid, currQuestion := id }

/-- Line 252: `if (data.questionID !== currQuestion) changeQuestion(socket,
data.questionID)` — the state a bid is validated against once the (possible)
question transition has run. -/
def postTransition (st : ServerState) (data : BidData) : ServerState :=
  if data.questionID ≠ st.currQuestion then changeQuestion st data.questionID
  else st

/-- The `socket.on('bid')` handler (lines 243-299) of the second draft, as a
function from the current globals and the event payload to the decision
rendered and the updated globals.  `sid` is `socket.id`.

The call `changeQuestion(socket, data.questionID)` is not awaited, but its
whole local reset lies in the synchronous prefix of that async function
(before its first `await`), so it completes before the handler continues. -/
def bidHandler (sid : String) (st : ServerState) (data : BidData) :
    Decision × ServerState :=
  match st.roundDetails with
  | none => (Decision.exn, st)
  | some rd =>
    if rd.service = false then
      (Decision.reject Reason.down, st)
    else
      let st1 := postTransition st data
      match st1.questions.filter (fun item => item.id = data.questionID) with
      | [] => (Decision.reject Reason.questionID, st1)
      | q :: _ =>
        if q.allocated then
          (Decision.reject Reason.allocated, st1)
        else if data.bid > st1.currentBid then
          if data.bid % 5 ≠ 0 then
            (Decision.reject Reason.denomination, st1)
          else
            (Decision.accept,
             { st1 with
               currentBid := data.bid,
               history := st1.history ++ [⟨sid, data.bid⟩] })
        else
          (Decision.reject Reason.minimum, st1)

/-- Fate of an exception that escapes to process level.  Lines 136-138 install
`process.on('uncaughtException', (e) => Logger.error(e.message))`: the error is
logged and the process continues. -/
inductive Fate where
  | loggedAndContinued
  | crashed
deriving DecidableEq, Repr

/-- What the process does with an uncaught exception: log and continue. -/
def uncaughtExceptionFate : Fate := Fate.loggedAndContinued

/-- Processing of a sequence of bid events, each tagged with the submitting
socket's id, in arrival order (Node serializes the handler runs). -/
def runBids (st : ServerState) (bids : List (String × BidData)) : ServerState :=
  bids.foldl (fun s b => (bidHandler b.1 s b.2).2) st

/-- The `(bidderId, amount)` records of exactly those bids of the run that
received an `accept` decision, in decision order. -/
def acceptedRecords (st : ServerState) : List (String × BidData) → List HistoryEntry
  | [] => []
  | (sid, b) :: rest =>
    let r := bidHandler sid st b
    (if r.1 = Decision.accept then [⟨sid, b.bid⟩] else []) ++ acceptedRecords r.2 rest

/-- An external event hitting the state: a bid from a socket, or a round-
document snapshot (line 229: `docRef.onSnapshot(() => initiateRound())`). -/
inductive Event where
  | bid (sid : String) (data : BidData)
  | push (body : RoundBody)
deriving DecidableEq, Repr

/-- One event's effect on the globals. -/
def stepEvent (st : ServerState) : Event → ServerState
  | Event.bid sid data => (bidHandler sid st data).2
  | Event.push body => initiateRound st body

/-- Whether an event is safe from the empty-questions throw in
`initiateRound`: a push whose config has at least one question, or any bid. -/
def pushHasQuestion : Event → Bool
  | Event.push body => !body.questions.isEmpty
  | Event.bid _ _ => true

/-! ## Spec-side validator (for the refinement claims)

`specValidate` is written from the words of spec §4.2, to be compared with the
decision component of `bidHandler`. -/

/-- Rejection reasons as the spec names them. -/
inductive SpecReason where
  | serviceDisabled
  | unknownQuestion
  | questionAllocated
  | belowMinimum
  | badDenomination
deriving DecidableEq, Repr

/-- Spec §4.2 decision. -/
inductive SpecDecision where
  | accept
  | reject (r : SpecReason)
deriving DecidableEq, Repr

/-- Modelled from the spec, §4.2: pure first-match-wins validator.
1. `service-disabled` if the service flag is false;
2. `unknown-question` if the bid's questionId is not among the config's ids;
3. `question-allocated` if the matching question is allocated;
4. `below-minimum` if `amount <= currentBid`;
5. `bad-denomination` if `amount mod 5 != 0`;
6. otherwise `Accept`. -/
def specValidate (serviceEnabled : Bool) (questions : List Question)
    (currentBid : Int) (bid : BidData) : SpecDecision :=
  if serviceEnabled = false then
    SpecDecision.reject SpecReason.serviceDisabled
  else
    match questions.find? (fun q => q.id = bid.questionID) with
    | none => SpecDecision.reject SpecReason.unknownQuestion
    | some q =>
      if q.allocated then SpecDecision.reject SpecReason.questionAllocated
      else if bid.bid ≤ currentBid then SpecDecision.reject SpecReason.belowMinimum
      else if bid.bid % 5 ≠ 0 then SpecDecision.reject SpecReason.badDenomination
      else SpecDecision.accept

/-- Correspondence between the spec's reason names and the `type` fields the
code emits. -/
def toDecision : SpecDecision → Decision
  | SpecDecision.accept => Decision.accept
  | SpecDecision.reject SpecReason.serviceDisabled => Decision.reject Reason.down
  | SpecDecision.reject SpecReason.unknownQuestion => Decision.reject Reason.questionID
  | SpecDecision.reject SpecReason.questionAllocated => Decision.reject Reason.allocated
  | SpecDecision.reject SpecReason.belowMinimum => Decision.reject Reason.minimum
  | SpecDecision.reject SpecReason.badDenomination => Decision.reject Reason.denomination

/-! ## Concrete fixtures for counterexamples and witnesses -/

/-- A round with a free question `q1` and an already-allocated question `q2`,
floor bid 100, service enabled. -/
def roundQ12 : RoundBody :=
  { questions := [⟨"q1", false⟩, ⟨"q2", true⟩], minBid := 100, service := true }

/-- State right after `q1` became active under `roundQ12`: no bids yet,
`currentBid` at the floor. -/
def stateFresh : ServerState :=
  { currentBid := 100, history := [], currQuestion := "q1",
    roundDetails := some roundQ12, questions := roundQ12.questions, minBid := 100 }

/-- State under `roundQ12` after a bid of 150 on `q1` was accepted. -/
def stateMid : ServerState :=
  { currentBid := 150, history := [⟨"a", 150⟩], currQuestion := "q1",
    roundDetails := some roundQ12, questions := roundQ12.questions, minBid := 100 }

/-! ## Helper lemmas -/

theorem changeQuestion_questions (st : ServerState) (id : String) :
    (changeQuestion st id).questions = st.questions := by
  unfold changeQuestion
  split <;> rfl

theorem changeQuestion_roundDetails (st : ServerState) (id : String) :
    (changeQuestion st id).roundDetails = st.roundDetails := by
  unfold changeQuestion
  split <;> rfl

theorem postTransition_questions (st : ServerState) (data : BidData) :
    (postTransition st data).questions = st.questions := by
  unfold postTransition
  split
  · exact changeQuestion_questions st data.questionID
  · rfl

theorem postTransition_roundDetails (st : ServerState) (data : BidData) :
    (postTransition st data).roundDetails = st.roundDetails := by
  unfold postTransition
  split
  · exact changeQuestion_roundDetails st data.questionID
  · rfl

/-- `postTransition` either leaves the state alone, or (when the incoming id
differs from the active one and matches a known question) performs the reset. -/
theorem postTransition_cases (st : ServerState) (data : BidData) :
    postTransition st data = st ∨
    (st.questions.filter (fun item => item.id = data.questionID) ≠ [] ∧
     postTransition st data =
       { st with history := [], currentBid := st.minBid,
                 currQuestion := data.questionID }) := by
  unfold postTransition changeQuestion
  by_cases hq : data.questionID ≠ st.currQuestion
  · rw [if_pos hq]
    by_cases hl : (st.questions.filter (fun item => item.id = data.questionID)).length = 0
    · rw [if_pos hl]
      exact Or.inl rfl
    · rw [if_neg hl]
      refine Or.inr ⟨?_, rfl⟩
      intro hnil
      exact hl (by rw [hnil]; rfl)
  · rw [if_neg hq]
    exact Or.inl rfl

/-- When the bid targets the already-active question, no transition runs. -/
theorem postTransition_same_q (st : ServerState) (data : BidData)
    (hq : data.questionID = st.currQuestion) : postTransition st data = st := by
  unfold postTransition
  rw [if_neg (by simp [hq])]

/-- `find?` returns the head of `filter` (the code's `response[0]`). -/
theorem find?_eq_filter_head? (p : Question → Bool) :
    ∀ l : List Question, l.find? p = (l.filter p).head?
  | [] => rfl
  | a :: l => by
    by_cases h : p a
    · rw [List.find?_cons_of_pos _ h, List.filter_cons_of_pos h]
      rfl
    · rw [List.find?_cons_of_neg _ h, List.filter_cons_of_neg h]
      exact find?_eq_filter_head? p l

/-- Exhaustive case analysis of one run of the bid handler: exactly one of the
seven branches of the code fires, and each fully determines the decision and
the successor state. -/
theorem bidHandler_cases (sid : String) (st : ServerState) (data : BidData) :
    (st.roundDetails = none ∧ bidHandler sid st data = (Decision.exn, st)) ∨
    (∃ rd, st.roundDetails = some rd ∧ rd.service = false ∧
      bidHandler sid st data = (Decision.reject Reason.down, st)) ∨
    (∃ rd, st.roundDetails = some rd ∧ rd.service = true ∧
      (((postTransition st data).questions.filter
          (fun item => item.id = data.questionID) = [] ∧
        bidHandler sid st data =
          (Decision.reject Reason.questionID, postTransition st data)) ∨
       (∃ q rest, (postTransition st data).questions.filter
            (fun item => item.id = data.questionID) = q :: rest ∧
         ((q.allocated = true ∧
           bidHandler sid st data =
             (Decision.reject Reason.allocated, postTransition st data)) ∨
          (q.allocated = false ∧ data.bid ≤ (postTransition st data).currentBid ∧
           bidHandler sid st data =
             (Decision.reject Reason.minimum, postTransition st data)) ∨
          (q.allocated = false ∧ (postTransition st data).currentBid < data.bid ∧
           data.bid % 5 ≠ 0 ∧
           bidHandler sid st data =
             (Decision.reject Reason.denomination, postTransition st data)) ∨
          (q.allocated = false ∧ (postTransition st data).currentBid < data.bid ∧
           data.bid % 5 = 0 ∧
           bidHandler sid st data =
             (Decision.accept,
              { postTransition st data with
                currentBid := data.bid,
                history := (postTransition st data).history
                  ++ [⟨sid, data.bid⟩] })))))) := by
  unfold bidHandler
  cases hrd : st.roundDetails with
  | none => exact Or.inl ⟨rfl, rfl⟩
  | some rd =>
    dsimp only
    cases hsv : rd.service with
    | false =>
      refine Or.inr (Or.inl ⟨rd, rfl, hsv, ?_⟩)
      rw [if_pos rfl]
    | true =>
      refine Or.inr (Or.inr ⟨rd, rfl, hsv, ?_⟩)
      rw [if_neg (by simp)]
      cases hfl : (postTransition st data).questions.filter
          (fun item => item.id = data.questionID) with
      | nil => exact Or.inl ⟨rfl, rfl⟩
      | cons q rest =>
        refine Or.inr ⟨q, rest, rfl, ?_⟩
        dsimp only
        cases ha : q.allocated with
        | true =>
          refine Or.inl ⟨rfl, ?_⟩
          rw [if_pos rfl]
        | false =>
          rw [if_neg (by simp)]
          by_cases hgt : data.bid > (postTransition st data).currentBid
          · rw [if_pos hgt]
            by_cases h5 : data.bid % 5 ≠ 0
            · rw [if_pos h5]
              exact Or.inr (Or.inr (Or.inl ⟨rfl, hgt, h5, rfl⟩))
            · rw [if_neg h5]
              exact Or.inr (Or.inr (Or.inr
                ⟨rfl, hgt, by simpa using h5, rfl⟩))
          · rw [if_neg hgt]
            exact Or.inr (Or.inl ⟨rfl, by simpa using hgt, rfl⟩)

/-- A bid on the already-active question either leaves the state untouched
(every non-Accept outcome) or — exactly when it beats `currentBid` and is a
multiple of 5 — is accepted, raising `currentBid` to its amount and appending
it to `history`. -/
theorem bidHandler_same_q_step (sid : String) (st : ServerState) (data : BidData)
    (hq : data.questionID = st.currQuestion) :
    ((bidHandler sid st data).1 ≠ Decision.accept ∧ (bidHandler sid st data).2 = st) ∨
    ((bidHandler sid st data).1 = Decision.accept ∧
     st.currentBid < data.bid ∧ data.bid % 5 = 0 ∧
     (bidHandler sid st data).2 =
       { st with currentBid := data.bid,
                 history := st.history ++ [⟨sid, data.bid⟩] }) := by
  have hpt := postTransition_same_q st data hq
  rcases bidHandler_cases sid st data with ⟨_, he⟩ | ⟨rd, _, _, he⟩ |
    ⟨rd, hrd, hsv, ⟨_, he⟩ | ⟨q, rest, hfl, hcase⟩⟩
  · exact Or.inl ⟨by rw [he]; simp, by rw [he]⟩
  · exact Or.inl ⟨by rw [he]; simp, by rw [he]⟩
  · rw [hpt] at he
    exact Or.inl ⟨by rw [he]; simp, by rw [he]⟩
  · rcases hcase with ⟨_, he⟩ | ⟨_, _, he⟩ | ⟨_, _, _, he⟩ | ⟨_, hlt, h5, he⟩
    · rw [hpt] at he
      exact Or.inl ⟨by rw [he]; simp, by rw [he]⟩
    · rw [hpt] at he
      exact Or.inl ⟨by rw [he]; simp, by rw [he]⟩
    · rw [hpt] at he
      exact Or.inl ⟨by rw [he]; simp, by rw [he]⟩
    · rw [hpt] at he hlt
      exact Or.inr ⟨by rw [he], hlt, h5, by rw [he]⟩

/-! ## Theorems -/

/-- C2 amended: a bid rejected while targeting the already-active question
leaves the state unchanged, and rejections with reasons service-disabled or
unknown-question leave the state unchanged unconditionally; mutation under a
rejection can only come from the question transition that a valid, different
questionId triggers before validation. -/
theorem c2_amended_no_mutation_without_transition :
    (∀ sid st data, data.questionID = st.currQuestion →
        (bidHandler sid st data).1 ≠ Decision.accept →
        (bidHandler sid st data).2 = st) ∧
    (∀ sid st data,
        (bidHandler sid st data).1 = Decision.reject Reason.down ∨
        (bidHandler sid st data).1 = Decision.reject Reason.questionID →
        (bidHandler sid st data).2 = st) := by
  constructor
  · intro sid st data hq hna
    rcases bidHandler_same_q_step sid st data hq with ⟨_, he⟩ | ⟨hacc, _, _, _⟩
    · exact he
    · exact absurd hacc hna
  · intro sid st data hr
    rcases bidHandler_cases sid st data with ⟨_, he⟩ | ⟨rd, _, _, he⟩ |
      ⟨rd, hrd, hsv, ⟨hfl, he⟩ | ⟨q, rest, hfl, hcase⟩⟩
    · rw [he]
    · rw [he]
    · rw [he]
      rw [postTransition_questions] at hfl
      rcases postTransition_cases st data with hid | ⟨hne, _⟩
      · exact hid
      · exact absurd hfl hne
    · rcases hcase with ⟨_, he⟩ | ⟨_, _, he⟩ | ⟨_, _, _, he⟩ | ⟨_, _, _, he⟩ <;>
        rw [he] at hr <;> simp at hr

/-- C2 amended, witness: a below-minimum rejection on the active question and
an unknown-question rejection both leave the state untouched. -/
theorem c2_amended_witness :
    (bidHandler "c" stateMid ⟨"q1", 103⟩).2 = stateMid ∧
    (bidHandler "x" stateFresh ⟨"qX", 100⟩).2 = stateFresh :=
  ⟨c2_amended_no_mutation_without_transition.1 "c" stateMid ⟨"q1", 103⟩ rfl
      (by decide),
   c2_amended_no_mutation_without_transition.2 "x" stateFresh ⟨"qX", 100⟩
      (Or.inr rfl)⟩

/-- C3 amended: a bid is rejected with bad-denomination iff the service is
enabled, its questionId matches an unallocated known question, its amount
exceeds the `currentBid` in force after any triggered transition, and its
amount is not a multiple of 5 — the denomination check is subordinate to the
minimum-bid check, not independent of it. -/
theorem c3_amended_denomination_iff (sid : String) (st : ServerState)
    (data : BidData) (rd : RoundBody) (h : st.roundDetails = some rd) :
    (bidHandler sid st data).1 = Decision.reject Reason.denomination ↔
      (rd.service = true ∧
       (∃ q rest, (postTransition st data).questions.filter
           (fun item => item.id = data.questionID) = q :: rest ∧
         q.allocated = false) ∧
       (postTransition st data).currentBid < data.bid ∧
       data.bid % 5 ≠ 0) := by
  constructor
  · intro hde
    rcases bidHandler_cases sid st data with ⟨hn, _⟩ | ⟨rd', hrd, hsv, he⟩ |
      ⟨rd', hrd, hsv, ⟨hfl, he⟩ | ⟨q, rest, hfl, hcase⟩⟩
    · rw [h] at hn
      exact absurd hn (by simp)
    · rw [he] at hde
      simp at hde
    · rw [he] at hde
      simp at hde
    · rw [h] at hrd
      have hrd' : rd = rd' := by
        exact Option.some.inj hrd
      subst hrd'
      rcases hcase with ⟨_, he⟩ | ⟨_, _, he⟩ | ⟨ha, hlt, h5, he⟩ | ⟨_, _, _, he⟩
      · rw [he] at hde
        simp at hde
      · rw [he] at hde
        simp at hde
      · exact ⟨hsv, ⟨q, rest, hfl, ha⟩, hlt, h5⟩
      · rw [he] at hde
        simp at hde
  · rintro ⟨hsv, ⟨q, rest, hfl, ha⟩, hlt, h5⟩
    rcases bidHandler_cases sid st data with ⟨hn, _⟩ | ⟨rd', hrd, hsv', he⟩ |
      ⟨rd', hrd, hsv', ⟨hfl', he⟩ | ⟨q', rest', hfl', hcase⟩⟩
    · rw [h] at hn
      exact absurd hn (by simp)
    · rw [h] at hrd
      have hrd' : rd = rd' := Option.some.inj hrd
      subst hrd'
      rw [hsv] at hsv'
      simp at hsv'
    · rw [hfl] at hfl'
      simp at hfl'
    · rw [hfl] at hfl'
      have hq : q' = q := (List.cons.inj hfl').1.symm
      rcases hcase with ⟨ha', he⟩ | ⟨_, hle, he⟩ | ⟨_, _, _, he⟩ | ⟨_, _, h5', he⟩
      · rw [hq, ha] at ha'
        simp at ha'
      · exact absurd hle (not_le.mpr hlt)
      · rw [he]
      · exact absurd h5' h5

/-- C3 amended, witness: the iff instantiated at a bid of 152 against
`currentBid = 150` — accepted past the minimum check, rejected for
denomination. -/
theorem c3_amended_witness :
    (bidHandler "w" stateMid ⟨"q1", 152⟩).1 = Decision.reject Reason.denomination ↔
      (roundQ12.service = true ∧
       (∃ q rest, (postTransition stateMid ⟨"q1", 152⟩).questions.filter
           (fun item => item.id = BidData.questionID ⟨"q1", 152⟩) = q :: rest ∧
         q.allocated = false) ∧
       (postTransition stateMid ⟨"q1", 152⟩).currentBid < BidData.bid ⟨"q1", 152⟩ ∧
       BidData.bid ⟨"q1", 152⟩ % 5 ≠ 0) :=
  c3_amended_denomination_iff "w" stateMid ⟨"q1", 152⟩ roundQ12 rfl

/-- C5: the decision the bid handler renders is exactly the spec's
first-match-wins evaluation — service-disabled, then unknown-question, then
question-allocated, then below-minimum, then bad-denomination, else Accept —
applied to the state the bid is judged against (the state after any triggered
transition). -/
theorem c5_decision_is_first_match (sid : String) (st : ServerState)
    (data : BidData) (rd : RoundBody) (h : st.roundDetails = some rd) :
    (bidHandler sid st data).1 =
      toDecision (specValidate rd.service (postTransition st data).questions
        (postTransition st data).currentBid data) := by
  rcases bidHandler_cases sid st data with ⟨hn, _⟩ | ⟨rd', hrd, hsv, he⟩ |
    ⟨rd', hrd, hsv, ⟨hfl, he⟩ | ⟨q, rest, hfl, hcase⟩⟩
  · rw [h] at hn
    exact absurd hn (by simp)
  · rw [h] at hrd
    obtain rfl : rd = rd' := Option.some.inj hrd
    rw [he]
    unfold specValidate
    rw [if_pos hsv]
    rfl
  · rw [h] at hrd
    obtain rfl : rd = rd' := Option.some.inj hrd
    rw [he]
    unfold specValidate
    rw [if_neg (by rw [hsv]; simp), find?_eq_filter_head?, hfl]
    rfl
  · rw [h] at hrd
    obtain rfl : rd = rd' := Option.some.inj hrd
    unfold specValidate
    rw [if_neg (by rw [hsv]; simp), find?_eq_filter_head?, hfl]
    rcases hcase with ⟨ha, he⟩ | ⟨ha, hle, he⟩ | ⟨ha, hlt, h5, he⟩ |
      ⟨ha, hlt, h5, he⟩
    · rw [he]
      dsimp only [List.head?]
      rw [if_pos ha]
      rfl
    · rw [he]
      dsimp only [List.head?]
      rw [if_neg (by rw [ha]; simp), if_pos hle]
      rfl
    · rw [he]
      dsimp only [List.head?]
      rw [if_neg (by rw [ha]; simp), if_neg (not_le.mpr hlt), if_pos h5]
      rfl
    · rw [he]
      dsimp only [List.head?]
      rw [if_neg (by rw [ha]; simp), if_neg (not_le.mpr hlt),
        if_neg (by rw [h5]; simp)]
      rfl

/-- C5 witness: the first-match equation instantiated at an accepted bid. -/
theorem c5_witness :
    (bidHandler "s" stateFresh ⟨"q1", 150⟩).1 =
      toDecision (specValidate roundQ12.service
        (postTransition stateFresh ⟨"q1", 150⟩).questions
        (postTransition stateFresh ⟨"q1", 150⟩).currentBid ⟨"q1", 150⟩) :=
  c5_decision_is_first_match "s" stateFresh ⟨"q1", 150⟩ roundQ12 rfl

/-- C6: when the service is enabled and a bid names a known question different
from the active one, the handler behaves exactly as if the reset — history
cleared, `currentBid` back to the floor, `activeQuestionId` switched — had
been applied first and the bid then processed against that fresh state. -/
theorem c6_transition_before_validation (sid : String) (st : ServerState)
    (data : BidData) (rd : RoundBody) (h : st.roundDetails = some rd)
    (hs : rd.service = true) (hne : data.questionID ≠ st.currQuestion)
    (hknown : st.questions.filter (fun item => item.id = data.questionID) ≠ []) :
    bidHandler sid st data =
      bidHandler sid
        { st with history := [], currentBid := st.minBid,
                  currQuestion := data.questionID } data := by
  have hcq : changeQuestion st data.questionID =
      { st with history := [], currentBid := st.minBid,
                currQuestion := data.questionID } := by
    unfold changeQuestion
    rw [if_neg (fun h0 => hknown (List.length_eq_zero.mp h0))]
  have hpt : postTransition st data =
      { st with history := [], currentBid := st.minBid,
                currQuestion := data.questionID } := by
    unfold postTransition
    rw [if_pos hne, hcq]
  have hpt2 : postTransition
      { st with history := [], currentBid := st.minBid,
                currQuestion := data.questionID } data =
      { st with history := [], currentBid := st.minBid,
                currQuestion := data.questionID } :=
    postTransition_same_q _ _ rfl
  have hs' : ¬(rd.service = false) := by
    rw [hs]
    simp
  unfold bidHandler
  dsimp only
  rw [hpt, hpt2, h]
  dsimp only
  rw [if_neg hs', if_neg hs']

/-- C6 witness: a bid that switches from `q1` to the allocated question `q2`
is processed exactly as it would be against the pre-reset state for `q2`. -/
theorem c6_witness :
    bidHandler "b" stateMid ⟨"q2", 10⟩ =
      bidHandler "b"
        { stateMid with history := [], currentBid := stateMid.minBid,
                        currQuestion := "q2" } ⟨"q2", 10⟩ :=
  c6_transition_before_validation "b" stateMid ⟨"q2", 10⟩ roundQ12 rfl rfl
    (by decide) (by decide)

theorem acceptedRecords_cons (s : String) (b : BidData) (st : ServerState)
    (tl : List (String × BidData)) :
    acceptedRecords st ((s, b) :: tl) =
      (if (bidHandler s st b).1 = Decision.accept then [⟨s, b.bid⟩] else []) ++
        acceptedRecords (bidHandler s st b).2 tl := rfl

theorem runBids_cons (st : ServerState) (p : String × BidData)
    (tl : List (String × BidData)) :
    runBids st (p :: tl) = runBids (bidHandler p.1 st p.2).2 tl := rfl

/-- Over a run of bids that all target the active question, the final history
is the initial history extended by exactly the accepted records, and the
active question never changes. -/
theorem runBids_history_currQ (bids : List (String × BidData)) :
    ∀ st : ServerState, (∀ p ∈ bids, p.2.questionID = st.currQuestion) →
      (runBids st bids).history = st.history ++ acceptedRecords st bids ∧
      (runBids st bids).currQuestion = st.currQuestion := by
  induction bids with
  | nil =>
    intro st _
    exact ⟨by simp [runBids, acceptedRecords], rfl⟩
  | cons p tl ih =>
    intro st hall
    obtain ⟨s, b⟩ := p
    have hq : b.questionID = st.currQuestion := hall (s, b) (List.mem_cons_self _ _)
    rcases bidHandler_same_q_step s st b hq with ⟨hna, he⟩ | ⟨hacc, _, _, he⟩
    · have hall' : ∀ p ∈ tl, p.2.questionID = ((bidHandler s st b).2).currQuestion := by
        intro p hp
        rw [he]
        exact hall p (List.mem_cons_of_mem _ hp)
      obtain ⟨ih1, ih2⟩ := ih ((bidHandler s st b).2) hall'
      constructor
      · rw [runBids_cons, ih1, acceptedRecords_cons, if_neg hna, he]
        simp
      · rw [runBids_cons, ih2, he]
    · have hcq : ((bidHandler s st b).2).currQuestion = st.currQuestion := by
        rw [he]
      have hall' : ∀ p ∈ tl, p.2.questionID = ((bidHandler s st b).2).currQuestion := by
        intro p hp
        rw [hcq]
        exact hall p (List.mem_cons_of_mem _ hp)
      obtain ⟨ih1, ih2⟩ := ih ((bidHandler s st b).2) hall'
      constructor
      · rw [runBids_cons, ih1, acceptedRecords_cons, if_pos hacc, he]
        simp
      · rw [runBids_cons, ih2, hcq]

/-- C7: during a single question's activation — every bid targeting the active
question, no round push in between — the resulting history is exactly the
sequence of `(bidderId, amount)` records of the bids that received an Accept
decision, in decision order. -/
theorem c7_history_is_accepted_subsequence (st : ServerState)
    (bids : List (String × BidData))
    (hq : ∀ p ∈ bids, p.2.questionID = st.currQuestion)
    (h0 : st.history = []) :
    (runBids st bids).history = acceptedRecords st bids := by
  rw [(runBids_history_currQ bids st hq).1, h0]
  rfl

/-- C7 witness: two bids on `q1`, both accepted, appear in order. -/
theorem c7_witness :
    (runBids stateFresh [("s1", ⟨"q1", 150⟩), ("s2", ⟨"q1", 140⟩)]).history =
      acceptedRecords stateFresh [("s1", ⟨"q1", 150⟩), ("s2", ⟨"q1", 140⟩)] :=
  c7_history_is_accepted_subsequence stateFresh
    [("s1", ⟨"q1", 150⟩), ("s2", ⟨"q1", 140⟩)] (by decide) rfl

theorem postTransition_floor (st : ServerState) (data : BidData)
    (h : st.minBid ≤ st.currentBid) :
    (postTransition st data).minBid ≤ (postTransition st data).currentBid := by
  rcases postTransition_cases st data with he | ⟨_, he⟩
  · rw [he]
    exact h
  · rw [he]

theorem bidHandler_floor (sid : String) (st : ServerState) (data : BidData)
    (h : st.minBid ≤ st.currentBid) :
    (bidHandler sid st data).2.minBid ≤ (bidHandler sid st data).2.currentBid := by
  rcases bidHandler_cases sid st data with ⟨_, he⟩ | ⟨rd, _, _, he⟩ |
    ⟨rd, _, _, ⟨_, he⟩ | ⟨q, rest, _, hcase⟩⟩
  · rw [he]
    exact h
  · rw [he]
    exact h
  · rw [he]
    exact postTransition_floor st data h
  · rcases hcase with ⟨_, he⟩ | ⟨_, _, he⟩ | ⟨_, _, _, he⟩ | ⟨_, hlt, _, he⟩
    · rw [he]
      exact postTransition_floor st data h
    · rw [he]
      exact postTransition_floor st data h
    · rw [he]
      exact postTransition_floor st data h
    · rw [he]
      exact le_trans (postTransition_floor st data h) (le_of_lt hlt)

theorem initiateRound_floor (st : ServerState) (body : RoundBody)
    (h : body.questions ≠ []) :
    (initiateRound st body).minBid ≤ (initiateRound st body).currentBid := by
  unfold initiateRound
  cases hq : body.questions with
  | nil => exact absurd hq h
  | cons q qs => exact le_refl _

theorem stepEvent_floor (st : ServerState) (e : Event)
    (h : st.minBid ≤ st.currentBid) (hp : pushHasQuestion e = true) :
    (stepEvent st e).minBid ≤ (stepEvent st e).currentBid := by
  cases e with
  | bid sid data => exact bidHandler_floor sid st data h
  | push body =>
    refine initiateRound_floor st body (fun hnil => ?_)
    simp only [pushHasQuestion, Bool.not_eq_true'] at hp
    rw [hnil] at hp
    simp at hp

theorem foldl_stepEvent_floor (events : List Event) :
    ∀ st : ServerState, st.minBid ≤ st.currentBid →
      (∀ e ∈ events, pushHasQuestion e = true) →
      (events.foldl stepEvent st).minBid ≤ (events.foldl stepEvent st).currentBid := by
  induction events with
  | nil =>
    intro st h _
    exact h
  | cons e tl ih =>
    intro st h hall
    exact ih (stepEvent st e)
      (stepEvent_floor st e h (hall e (List.mem_cons_self _ _)))
      (fun e' he' => hall e' (List.mem_cons_of_mem _ he'))

/-- C8 counterexample: initialization with floor 100, an accepted bid of 150,
then a push whose config has an empty question list: `initiateRound` updates
`minBid` to 200 but throws at `questions[0].id` before resetting `currentBid`,
leaving the reachable state with `currentBid = 150 < 200 = minBid` — the
floor invariant fails for the RoundConfig in effect. -/
theorem c8_empty_push_floor_violated :
    (([Event.bid "s" ⟨"q1", 150⟩, Event.push ⟨[], 200, true⟩] :
        List Event).foldl stepEvent (initiateRound initialState roundQ12)).currentBid <
      (([Event.bid "s" ⟨"q1", 150⟩, Event.push ⟨[], 200, true⟩] :
        List Event).foldl stepEvent (initiateRound initialState roundQ12)).minBid := by
  decide

/-- C8 amended: `currentBid` never decreases under a bid processed during a
single question's activation; and `currentBid` is at least the floor bid of
the round config in effect in every state reachable after an initialization
whose config has a non-empty question list, by bid events and round pushes
whose configs all have non-empty question lists. -/
theorem c8_amended_monotone_and_floor :
    (∀ sid st data, BidData.questionID data = st.currQuestion →
        st.currentBid ≤ (bidHandler sid st data).2.currentBid) ∧
    (∀ (st0 : ServerState) (body : RoundBody) (events : List Event),
        body.questions ≠ [] →
        (∀ e ∈ events, pushHasQuestion e = true) →
        (events.foldl stepEvent (initiateRound st0 body)).minBid ≤
          (events.foldl stepEvent (initiateRound st0 body)).currentBid) := by
  constructor
  · intro sid st data hq
    rcases bidHandler_same_q_step sid st data hq with ⟨_, he⟩ | ⟨_, hlt, _, he⟩
    · rw [he]
    · rw [he]
      exact le_of_lt hlt
  · intro st0 body events h1 h2
    exact foldl_stepEvent_floor events (initiateRound st0 body)
      (initiateRound_floor st0 body h1) h2

/-- C8 amended, witness: monotonicity at an accepted bid, and the floor
invariant after an initialization followed by one bid and one non-empty push. -/
theorem c8_amended_witness :
    stateFresh.currentBid ≤
      (bidHandler "s" stateFresh ⟨"q1", 150⟩).2.currentBid ∧
    (([Event.bid "s" ⟨"q1", 150⟩, Event.push ⟨[⟨"q1", false⟩], 200, true⟩] :
        List Event).foldl stepEvent (initiateRound initialState roundQ12)).minBid ≤
      (([Event.bid "s" ⟨"q1", 150⟩, Event.push ⟨[⟨"q1", false⟩], 200, true⟩] :
        List Event).foldl stepEvent (initiateRound initialState roundQ12)).currentBid :=
  ⟨c8_amended_monotone_and_floor.1 "s" stateFresh ⟨"q1", 150⟩ rfl,
   c8_amended_monotone_and_floor.2 initialState roundQ12
     [Event.bid "s" ⟨"q1", 150⟩, Event.push ⟨[⟨"q1", false⟩], 200, true⟩]
     (by decide) (by decide)⟩

/-- C1 counterexample: against `currentBid = 100`, floor 100, processing
`b2 = 140` first and `b1 = 150` second yields two Accept decisions — it is not
the case that, in this processing order, exactly one bid is accepted and the
other rejected with below-minimum. -/
theorem c1_low_first_both_accepted :
    (bidHandler "s2" stateFresh ⟨"q1", 140⟩).1 = Decision.accept ∧
    (bidHandler "s1" (bidHandler "s2" stateFresh ⟨"q1", 140⟩).2 ⟨"q1", 150⟩).1
      = Decision.accept ∧
    (bidHandler "s1" (bidHandler "s2" stateFresh ⟨"q1", 140⟩).2 ⟨"q1", 150⟩).1
      ≠ Decision.reject Reason.minimum := by
  refine ⟨rfl, rfl, ?_⟩
  decide

/-- C1 amended: for bids `b1 = 150` and `b2 = 140` against `currentBid = 100`,
floor 100, the outcome depends on processing order: if `b1` is processed first
it is accepted and `b2` is rejected with below-minimum, but if `b2` is
processed first both bids are accepted. -/
theorem c1_amended_order_dependent :
    ((bidHandler "s1" stateFresh ⟨"q1", 150⟩).1 = Decision.accept ∧
     (bidHandler "s2" (bidHandler "s1" stateFresh ⟨"q1", 150⟩).2 ⟨"q1", 140⟩).1
       = Decision.reject Reason.minimum) ∧
    ((bidHandler "s2" stateFresh ⟨"q1", 140⟩).1 = Decision.accept ∧
     (bidHandler "s1" (bidHandler "s2" stateFresh ⟨"q1", 140⟩).2 ⟨"q1", 150⟩).1
       = Decision.accept) := by
  exact ⟨⟨rfl, rfl⟩, ⟨rfl, rfl⟩⟩

/-- C2 counterexample: a bid on the allocated question `q2` is rejected with
question-allocated, yet processing it changed `currentBid` (150 to 100),
`history` (cleared) and `activeQuestionId` (`q1` to `q2`), because the
question transition at line 252 ran before validation. -/
theorem c2_rejected_bid_mutates_state :
    (bidHandler "b" stateMid ⟨"q2", 10⟩).1 = Decision.reject Reason.allocated ∧
    (bidHandler "b" stateMid ⟨"q2", 10⟩).2.currentBid ≠ stateMid.currentBid ∧
    (bidHandler "b" stateMid ⟨"q2", 10⟩).2.history ≠ stateMid.history ∧
    (bidHandler "b" stateMid ⟨"q2", 10⟩).2.currQuestion ≠ stateMid.currQuestion := by
  refine ⟨rfl, ?_, ?_, ?_⟩ <;> decide

/-- C3 counterexample: the bid `(q1, 103)` against `currentBid = 150` has
`103 % 5 ≠ 0`, yet it is rejected with below-minimum, not bad-denomination —
the bad-denomination rejection is not independent of the minimum-bid check. -/
theorem c3_nondivisible_rejected_below_minimum :
    (103 : Int) % 5 ≠ 0 ∧
    (bidHandler "c" stateMid ⟨"q1", 103⟩).1 = Decision.reject Reason.minimum ∧
    (bidHandler "c" stateMid ⟨"q1", 103⟩).1 ≠ Decision.reject Reason.denomination := by
  refine ⟨by decide, rfl, by decide⟩

/-- C4: a RoundConfig push is handled by `initiateRound`, which resets
`currentBid` to the new floor and `activeQuestionId` to the new round's first
question but does NOT clear `history` — contradicting the code's own comment
"Upon changes made to the round, reset all globals".  Evaluated at a push of a
new round (floor 200) over a state whose history holds one accepted bid. -/
theorem c4_push_preserves_history :
    (initiateRound stateMid ⟨[⟨"q3", false⟩], 200, true⟩).currentBid = 200 ∧
    (initiateRound stateMid ⟨[⟨"q3", false⟩], 200, true⟩).currQuestion = "q3" ∧
    (initiateRound stateMid ⟨[⟨"q3", false⟩], 200, true⟩).history = [⟨"a", 150⟩] ∧
    (initiateRound stateMid ⟨[⟨"q3", false⟩], 200, true⟩).history ≠ [] := by
  refine ⟨rfl, rfl, rfl, by decide⟩

/-- C9: a bid arriving while `roundDetails` is still undefined (before the
first round fetch resolves) throws; the handler renders no Accept, the state
is unchanged, and the process-level `uncaughtException` hook logs the error
and continues — the failure is not fatal and mutates nothing. -/
theorem c9_uninitialized_bid_rejected_nonfatal (sid : String) (st : ServerState)
    (data : BidData) (h : st.roundDetails = none) :
    (bidHandler sid st data).1 = Decision.exn ∧
    (bidHandler sid st data).1 ≠ Decision.accept ∧
    (bidHandler sid st data).2 = st ∧
    uncaughtExceptionFate = Fate.loggedAndContinued := by
  have he : bidHandler sid st data = (Decision.exn, st) := by
    unfold bidHandler
    rw [h]
  rw [he]
  exact ⟨rfl, by simp, rfl, rfl⟩

/-- C9 witness: the property instantiated at the process-start state. -/
theorem c9_witness :
    (bidHandler "s" initialState ⟨"q1", 100⟩).1 = Decision.exn ∧
    (bidHandler "s" initialState ⟨"q1", 100⟩).1 ≠ Decision.accept ∧
    (bidHandler "s" initialState ⟨"q1", 100⟩).2 = initialState ∧
    uncaughtExceptionFate = Fate.loggedAndContinued :=
  c9_uninitialized_bid_rejected_nonfatal "s" initialState ⟨"q1", 100⟩ rfl

/-- C10: after an accepted bid of 150 on `q1` (floor 100) followed by a round
push with floor 200, the reachable state has a non-empty history whose last
entry records amount 150 while `currentBid` is 200 — `currentBid` does not
equal the most recently appended history amount, because `initiateRound`
fails to clear `history`. -/
theorem c10_stale_history_after_push :
    ((initiateRound ((bidHandler "a"
        (initiateRound initialState ⟨[⟨"q1", false⟩], 100, true⟩)
        ⟨"q1", 150⟩).2) ⟨[⟨"q1", false⟩], 200, true⟩).history.getLast?
      = some ⟨"a", 150⟩) ∧
    ((initiateRound ((bidHandler "a"
        (initiateRound initialState ⟨[⟨"q1", false⟩], 100, true⟩)
        ⟨"q1", 150⟩).2) ⟨[⟨"q1", false⟩], 200, true⟩).currentBid = 200) ∧
    (200 : Int) ≠ 150 := by
  refine ⟨rfl, rfl, by decide⟩

end Bidding
